import Mathlib

/-!
Verification development for the fenwick-backend repository.

The development shallowly embeds the reconciliation engine of
sync-to-production.js (src/unnamed/part_002, second segment), the
replace-production.js workflow, and the gateway handlers of server.js
(src/unnamed/part_002, third segment).

JavaScript values flowing through the scripts are parsed JSON documents;
they are modelled by the inductive `Json` below, whose objects are
insertion-ordered field lists, exactly as JavaScript objects preserve key
insertion order.  `deepEqual` in the source compares `JSON.stringify`
outputs, so `stringify` is embedded explicitly.
-/

namespace Fenwick

/-- A parsed JSON document.  Objects keep their fields in insertion order,
as JavaScript objects do. -/
inductive Json where
  | null : Json
  | bool : Bool → Json
  | num : Int → Json
  | str : String → Json
  | arr : List Json → Json
  | obj : List (String × Json) → Json

/-- Escape one character as JSON.stringify does (quote and backslash). -/
def escChar (c : Char) : String :=
  if c = '"' then "\\\""
  else if c = '\\' then "\\\\"
  else String.singleton c

/-- Quote a string as JSON.stringify does. -/
def quoteStr (s : String) : String :=
  "\"" ++ String.join (s.toList.map escChar) ++ "\""

mutual

/-- Embedding of JavaScript JSON.stringify on parsed documents: object
fields are emitted in insertion order. -/
def stringify : Json → String
  | Json.null => "null"
  | Json.bool true => "true"
  | Json.bool false => "false"
  | Json.num n => toString n
  | Json.str s => quoteStr s
  | Json.arr xs => "[" ++ stringifyArr xs ++ "]"
  | Json.obj fs => "\x7b" ++ stringifyObj fs ++ "\x7d"

def stringifyArr : List Json → String
  | [] => ""
  | [x] => stringify x
  | x :: y :: rest => stringify x ++ "," ++ stringifyArr (y :: rest)

def stringifyObj : List (String × Json) → String
  | [] => ""
  | [kv] => quoteStr kv.1 ++ ":" ++ stringify kv.2
  | kv :: kv2 :: rest =>
      quoteStr kv.1 ++ ":" ++ stringify kv.2 ++ "," ++ stringifyObj (kv2 :: rest)

end

/-- A project record as handled by the sync scripts: the full parsed JSON
document, together with its `id` attribute (TEXT primary key in the
gateway schema), which is the key used for Map construction. -/
structure Project where
  id : String
  doc : Json

/-- A snapshot: the parsed shape of local-data.json and of the response of
GET /api/data, namely projects plus a settings document. -/
structure Snapshot where
  projects : List Project
  settings : Json

/-- deepEqual from sync-to-production.js:
JSON.stringify(obj1) === JSON.stringify(obj2), applied to two records. -/
def deepEqual (a b : Project) : Bool :=
  stringify a.doc == stringify b.doc

/-- deepEqual applied to two settings documents. -/
def deepEqualJson (a b : Json) : Bool :=
  stringify a == stringify b

/-- One insertion into a JavaScript Map: a duplicate key overwrites the
stored value in place, a fresh key is appended, so iteration order is
first-insertion order. -/
def insertEntry (m : List (String × Project)) (k : String) (v : Project) :
    List (String × Project) :=
  if m.any (fun kv => kv.1 = k) then
    m.map (fun kv => if kv.1 = k then (k, v) else kv)
  else m ++ [(k, v)]

/-- The Map built by syncData over projects keyed by p.id
(sync-to-production.js). -/
def buildMap (ps : List Project) : List (String × Project) :=
  ps.foldl (fun m p => insertEntry m p.id p) []

/-- Map.get: the value stored at a key, none when absent. -/
def findInMap (m : List (String × Project)) (k : String) : Option Project :=
  match m with
  | [] => none
  | kv :: rest => if kv.1 = k then some kv.2 else findInMap rest k

/-- The change plan computed by syncData: toCreate, toUpdate (local and
production versions), toDelete, and the settings-changed flag. -/
structure Plan where
  toCreate : List Project
  toUpdate : List (Project × Project)
  toDelete : List Project
  settingsChanged : Bool

/-- The analysis loops of syncData (sync-to-production.js): iterate the
local map, pushing to toCreate when production lacks the id and to
toUpdate when the records are not deepEqual; iterate the production map,
pushing to toDelete when the local map lacks the id; compare settings by
deepEqual. -/
def computePlan (localData prodData : Snapshot) : Plan :=
  let localMap := buildMap localData.projects
  let prodMap := buildMap prodData.projects
  { toCreate := localMap.filterMap fun kv =>
      match findInMap prodMap kv.1 with
      | none => some kv.2
      | some _ => none
    toUpdate := localMap.filterMap fun kv =>
      match findInMap prodMap kv.1 with
      | none => none
      | some pp => if deepEqual kv.2 pp then none else some (kv.2, pp)
    toDelete := prodMap.filterMap fun kv =>
      match findInMap localMap kv.1 with
      | some _ => none
      | none => some kv.2
    settingsChanged := !(deepEqualJson localData.settings prodData.settings) }

/-- Lowercase one ASCII character, as toLowerCase does on the affected
tokens. -/
def lowChar (c : Char) : Char :=
  if 65 ≤ c.toNat ∧ c.toNat ≤ 90 then Char.ofNat (c.toNat + 32) else c

/-- Uppercase one ASCII character, as toUpperCase does on the affected
tokens. -/
def upChar (c : Char) : Char :=
  if 97 ≤ c.toNat ∧ c.toNat ≤ 122 then Char.ofNat (c.toNat - 32) else c

/-- JavaScript toLowerCase on the ASCII confirmation answers. -/
def jsToLower (s : String) : String := ⟨s.data.map lowChar⟩

/-- JavaScript toUpperCase on the ASCII confirmation answers. -/
def jsToUpper (s : String) : String := ⟨s.data.map upChar⟩

/-- A total lexicographic order on character lists, used to fix a
canonical key order for the normalizing comparator. -/
def charListLe : List Char → List Char → Bool
  | [], _ => true
  | _ :: _, [] => false
  | c :: cs, d :: ds =>
      if c.toNat < d.toNat then true
      else if d.toNat < c.toNat then false
      else charListLe cs ds

/-- Key order for normalization. -/
def keyLe (a b : String) : Bool := charListLe a.data b.data

/-- Insert a field into a key-sorted field list (insertion sort step). -/
def insertField (kv : String × Json) : List (String × Json) → List (String × Json)
  | [] => [kv]
  | kv2 :: rest =>
      if keyLe kv.1 kv2.1 then kv :: kv2 :: rest else kv2 :: insertField kv rest

/-- Sort an object field list by key. -/
def sortFields (fs : List (String × Json)) : List (String × Json) :=
  fs.foldr insertField []

mutual

/-- Modelled from the spec: recursively normalize the key order of every
nested mapping, so that two documents that differ only in key insertion
order inside a mapping become identical.  This is the comparator the spec
requires for change detection; the source deepEqual does not normalize. -/
def normKeys : Json → Json
  | Json.null => Json.null
  | Json.bool b => Json.bool b
  | Json.num n => Json.num n
  | Json.str s => Json.str s
  | Json.arr xs => Json.arr (normList xs)
  | Json.obj fs => Json.obj (sortFields (normFields fs))

def normList : List Json → List Json
  | [] => []
  | x :: xs => normKeys x :: normList xs

def normFields : List (String × Json) → List (String × Json)
  | [] => []
  | kv :: fs => (kv.1, normKeys kv.2) :: normFields fs

end

/-- Modelled from the spec: full structural equality of two documents,
treating nested mappings as mappings (key order irrelevant) and sequences
as ordered. -/
def specStructuralEq (a b : Json) : Bool :=
  stringify (normKeys a) == stringify (normKeys b)

/-- The remote mutation calls the scripts can issue against the gateway:
POST /api/projects, PUT /api/projects/:id, DELETE /api/projects/:id.  A
settings-mutation call is included in the type so that its absence from
every trace is expressible; no script ever issues one. -/
inductive RemoteCall where
  | create : Project → RemoteCall
  | update : String → Project → RemoteCall
  | delete : String → RemoteCall
  | settingsUpdate : Json → RemoteCall

/-- The outcome of one remote operation: an ok response, a non-success
HTTP response, or a thrown network error.  The source catches the thrown
error and treats both failure shapes as a counted failure. -/
inductive Outcome where
  | ok : Outcome
  | httpError : Outcome
  | netError : Outcome
deriving DecidableEq

/-- Running success/failure counters plus the calls issued so far. -/
structure OpCounts where
  succ : Nat
  fail : Nat
  issued : List RemoteCall

/-- One batch loop of the sync/replace scripts: each operation is issued
in order; an ok response increments the success counter, a non-success
response or a thrown error increments the failure counter, and the loop
always continues to the next operation. -/
def execOps (oracle : RemoteCall → Outcome) :
    List RemoteCall → OpCounts → OpCounts
  | [], acc => acc
  | c :: rest, acc =>
      match oracle c with
      | Outcome.ok =>
          execOps oracle rest ⟨acc.succ + 1, acc.fail, acc.issued ++ [c]⟩
      | _ =>
          execOps oracle rest ⟨acc.succ, acc.fail + 1, acc.issued ++ [c]⟩

/-- The mutation calls a plan expands to, in source order: creates (POST
of each local record), then updates (PUT of each local record at its id),
then deletes (DELETE of each production record id). -/
def plannedCalls (plan : Plan) : List RemoteCall :=
  plan.toCreate.map RemoteCall.create ++
    plan.toUpdate.map (fun q => RemoteCall.update q.1.id q.1) ++
    plan.toDelete.map (fun q => RemoteCall.delete q.id)

/-- The observable result of one syncData run (after both snapshots
loaded): the mutation calls issued in order, the success and failure
counters, and the report flags printed. -/
structure SyncResult where
  calls : List RemoteCall
  successCount : Nat
  failCount : Nat
  alreadyInSync : Bool
  cancelled : Bool
  settingsNotice : Bool
  finished : Bool

/-- syncData from sync-to-production.js, from the point where both
snapshots are loaded: compute the plan; if it is entirely empty report
already-in-sync and return with no calls; otherwise, without --confirm,
cancel with no calls unless the answer lowercases to yes or y; otherwise
run the create, update and delete loops in that order, then print the
settings-not-implemented notice when settings changed, then the final
summary. -/
def syncRun (localData prodData : Snapshot) (autoConfirm : Bool)
    (answer : String) (oracle : RemoteCall → Outcome) : SyncResult :=
  let plan := computePlan localData prodData
  if plan.toCreate.isEmpty && plan.toUpdate.isEmpty && plan.toDelete.isEmpty
      && !plan.settingsChanged then
    { calls := [], successCount := 0, failCount := 0, alreadyInSync := true,
      cancelled := false, settingsNotice := false, finished := false }
  else if !autoConfirm && jsToLower answer != "yes" && jsToLower answer != "y" then
    { calls := [], successCount := 0, failCount := 0, alreadyInSync := false,
      cancelled := true, settingsNotice := false, finished := false }
  else
    let r1 := execOps oracle (plan.toCreate.map RemoteCall.create) ⟨0, 0, []⟩
    let r2 := execOps oracle
      (plan.toUpdate.map (fun q => RemoteCall.update q.1.id q.1)) r1
    let r3 := execOps oracle (plan.toDelete.map (fun q => RemoteCall.delete q.id)) r2
    { calls := r3.issued, successCount := r3.succ, failCount := r3.fail,
      alreadyInSync := false, cancelled := false,
      settingsNotice := plan.settingsChanged, finished := true }

/-- An observable event of one replace-production.js run: the backup file
written (with the fetched production snapshot as its content), a remote
mutation call, the settings-not-implemented notice, or the final
verification re-fetch. -/
inductive REvent where
  | backup : Snapshot → REvent
  | call : RemoteCall → REvent
  | settingsNote : REvent
  | verify : REvent

/-- The inputs of one replace-production.js run: the local snapshot file
(none when local-data.json is missing), the result of the production
fetch, whether the backup write succeeds (writeFileSync throwing is the
failure case), the --confirm flag, and the two prompt answers. -/
structure ReplaceInput where
  localData : Option Snapshot
  fetchResult : Except String Snapshot
  backupWriteOk : Bool
  autoConfirm : Bool
  answer1 : String
  answer2 : String

/-- The observable result of one replace-production.js run. -/
structure ReplaceResult where
  events : List REvent
  deleted : Nat
  dfailed : Nat
  created : Nat
  cfailed : Nat
  cancelled : Bool
  aborted : Bool
  finished : Bool

/-- The DELETE calls of deleteAllProjects: one per production record, in
order, keyed by the record id. -/
def deleteCallsOf (ps : List Project) : List RemoteCall :=
  ps.map (fun p => RemoteCall.delete p.id)

/-- The POST calls of createProjects: one per local record, in order. -/
def createCallsOf (ps : List Project) : List RemoteCall :=
  ps.map RemoteCall.create

/-- replaceProduction from replace-production.js: abort (exit 1, nothing
issued) when the local file is missing, the production fetch fails, or
the backup write throws; otherwise the backup is written first, then
without --confirm the run cancels unless the first answer is exactly
REPLACE and the second answer uppercases to YES; on confirmation
deleteAllProjects runs over every production record, then createProjects
over every local record, then the settings notice and the verification
fetch. -/
def replaceRun (inp : ReplaceInput) (oracle : RemoteCall → Outcome) :
    ReplaceResult :=
  match inp.localData with
  | none =>
      { events := [], deleted := 0, dfailed := 0, created := 0, cfailed := 0,
        cancelled := false, aborted := true, finished := false }
  | some localData =>
    match inp.fetchResult with
    | Except.error _ =>
        { events := [], deleted := 0, dfailed := 0, created := 0, cfailed := 0,
          cancelled := false, aborted := true, finished := false }
    | Except.ok prodData =>
      if !inp.backupWriteOk then
        { events := [], deleted := 0, dfailed := 0, created := 0, cfailed := 0,
          cancelled := false, aborted := true, finished := false }
      else if !inp.autoConfirm && inp.answer1 != "REPLACE" then
        { events := [REvent.backup prodData], deleted := 0, dfailed := 0,
          created := 0, cfailed := 0, cancelled := true, aborted := false,
          finished := false }
      else if !inp.autoConfirm && jsToUpper inp.answer2 != "YES" then
        { events := [REvent.backup prodData], deleted := 0, dfailed := 0,
          created := 0, cfailed := 0, cancelled := true, aborted := false,
          finished := false }
      else
        let d := execOps oracle (deleteCallsOf prodData.projects) ⟨0, 0, []⟩
        let c := execOps oracle (createCallsOf localData.projects) ⟨0, 0, []⟩
        { events := REvent.backup prodData ::
            (d.issued.map REvent.call ++ c.issued.map REvent.call ++
              [REvent.settingsNote, REvent.verify]),
          deleted := d.succ, dfailed := d.fail,
          created := c.succ, cfailed := c.fail,
          cancelled := false, aborted := false, finished := true }

/-!
The gateway handlers of server.js needed by C9 and C10.
-/

/-- A stored row of the projects table, as built by POST /api/projects:
string columns after defaulting, the number column, and the three
JSON-stringified columns.  stages has no default: a missing stages input
stays missing (JSON.stringify(undefined) is undefined). -/
structure StoredProject where
  id : Option String
  number : Int
  name : Option String
  practiceName : Option String
  briefDescription : Option String
  client : String
  value : String
  area : String
  location : String
  projectTypes : String
  typeColor : String
  thumbnail : String
  notes : String
  stages : Option String
  pauses : String
deriving DecidableEq

/-- The request body of POST /api/projects: every field may be absent
(JavaScript undefined). -/
structure ProjectInput where
  id : Option String
  number : Option Int
  name : Option String
  practiceName : Option String
  briefDescription : Option String
  client : Option String
  value : Option String
  area : Option String
  location : Option String
  projectTypes : Option (List String)
  typeColor : Option String
  thumbnail : Option String
  notes : Option String
  stages : Option Json
  pauses : Option (List Json)

/-- JavaScript x || d for a string value: absent or empty picks the
default (the empty string is falsy). -/
def jsOrS (x : Option String) (d : String) : String :=
  match x with
  | none => d
  | some s => if s = "" then d else s

/-- JavaScript x || null for a string value: absent or empty becomes
null. -/
def jsOrNullS (x : Option String) : Option String :=
  match x with
  | none => none
  | some s => if s = "" then none else some s

/-- The projectData object built by POST /api/projects (server.js):
number defaults to a random draw below 1000 when absent or zero (zero is
falsy), string fields default to the empty string, practiceName and
briefDescription to null, typeColor to the fixed color, projectTypes and
pauses to stringified empty arrays, stages is stringified with no
default.  rand is the value of Math.floor(Math.random() * 1000) of this
run. -/
def createProjectData (p : ProjectInput) (rand : Int) : StoredProject :=
  { id := p.id
    number := match p.number with
      | none => rand
      | some n => if n = 0 then rand else n
    name := p.name
    practiceName := jsOrNullS p.practiceName
    briefDescription := jsOrNullS p.briefDescription
    client := jsOrS p.client ""
    value := jsOrS p.value ""
    area := jsOrS p.area ""
    location := jsOrS p.location ""
    projectTypes := stringify (Json.arr ((p.projectTypes.getD []).map Json.str))
    typeColor := jsOrS p.typeColor "#5a8a99"
    thumbnail := jsOrS p.thumbnail ""
    notes := jsOrS p.notes ""
    stages := p.stages.map stringify
    pauses := stringify (Json.arr (p.pauses.getD [])) }

/-- DELETE /api/projects/:id (server.js): run DELETE FROM projects WHERE
id = :id unconditionally; answer the success body whenever the query does
not error, and the 500 error body when it does.  No existence check is
performed. -/
def deleteProjectHandler (dbase : List StoredProject) (pid : String)
    (queryFails : Bool) : List StoredProject × Json :=
  if queryFails then
    (dbase, Json.obj [("error", Json.str "Failed to delete project")])
  else
    (dbase.filter (fun r => r.id ≠ some pid),
      Json.obj [("success", Json.bool true)])

/-- The key list of a map. -/
def keysOf (m : List (String × Project)) : List String :=
  m.map Prod.fst

/-- The ids classified as creates. -/
def createIds (l p : Snapshot) : List String :=
  (computePlan l p).toCreate.map Project.id

/-- The ids classified as updates. -/
def updateIds (l p : Snapshot) : List String :=
  (computePlan l p).toUpdate.map (fun q => q.1.id)

/-- The ids classified as deletes. -/
def deleteIds (l p : Snapshot) : List String :=
  (computePlan l p).toDelete.map Project.id

/-- An id present on both sides whose two records are deepEqual: the
unchanged classification (no operation is emitted for it). -/
def unchangedAt (l p : Snapshot) (s : String) : Prop :=
  ∃ lv pv, findInMap (buildMap l.projects) s = some lv ∧
    findInMap (buildMap p.projects) s = some pv ∧ deepEqual lv pv = true

/-- Every record id occurring on either side (with multiplicity; only
membership is used). -/
def unionIds (l p : Snapshot) : List String :=
  l.projects.map Project.id ++ p.projects.map Project.id

/-!
Concrete data used by the witnesses and counterexamples.
-/

/-- A small record document with an id and a name. -/
def docOf (i nm : String) : Json :=
  Json.obj [("id", Json.str i), ("name", Json.str nm)]

/-- A settings document in the shape served by GET /api/data. -/
def settings0 : Json :=
  Json.obj [("startYear", Json.num 2011), ("endYear", Json.num 2026),
    ("colorMap", Json.obj [("Commercial", Json.str "#C97373")]),
    ("projectTypeColors", Json.obj [])]

/-- The same settings except for a different colorMap. -/
def settingsD : Json :=
  Json.obj [("startYear", Json.num 2011), ("endYear", Json.num 2026),
    ("colorMap", Json.obj [("Commercial", Json.str "#FF0000")]),
    ("projectTypeColors", Json.obj [])]

def pr1 : Project := ⟨"1", docOf "1" "Alpha"⟩
def pr2L : Project := ⟨"2", docOf "2" "Beta"⟩
def pr2P : Project := ⟨"2", docOf "2" "BetaOld"⟩
def pr3 : Project := ⟨"3", docOf "3" "Gamma"⟩
def pr4 : Project := ⟨"4", docOf "4" "Delta"⟩

/-- Scenario A source snapshot: records 1, 2, 3. -/
def snapA : Snapshot := ⟨[pr1, pr2L, pr3], settings0⟩

/-- Scenario A target snapshot: records 2 (name differs), 3, 4. -/
def snapB : Snapshot := ⟨[pr2P, pr3, pr4], settings0⟩

/-- A record whose stages mapping lists concept before design. -/
def keyOrderDocL : Json :=
  Json.obj [("id", Json.str "7"), ("name", Json.str "A"),
    ("stages", Json.obj [("concept", Json.str "2020"), ("design", Json.str "2021")])]

/-- The same record with the two stages keys in the opposite insertion
order. -/
def keyOrderDocR : Json :=
  Json.obj [("id", Json.str "7"), ("name", Json.str "A"),
    ("stages", Json.obj [("design", Json.str "2021"), ("concept", Json.str "2020")])]

def krL : Project := ⟨"7", keyOrderDocL⟩
def krR : Project := ⟨"7", keyOrderDocR⟩

/-- Snapshot holding only the concept-first record. -/
def snapKL : Snapshot := ⟨[krL], settings0⟩

/-- Snapshot holding only the design-first record. -/
def snapKR : Snapshot := ⟨[krR], settings0⟩

/-- An oracle under which every remote operation succeeds. -/
def oracleAllOk : RemoteCall → Outcome := fun _ => Outcome.ok

/-- An oracle under which exactly the DELETE of one given id is rejected
with a non-success response. -/
def oracleFailOn (bad : String) : RemoteCall → Outcome := fun c =>
  match c with
  | RemoteCall.delete i => if i = bad then Outcome.httpError else Outcome.ok
  | _ => Outcome.ok

/-- A replace run whose second answer is lowercase yes. -/
def replaceInpLower : ReplaceInput :=
  ⟨some snapA, Except.ok snapB, true, false, "REPLACE", "yes"⟩

/-- A replace run whose first answer mistypes the REPLACE phrase. -/
def replaceInpBad1 : ReplaceInput :=
  ⟨some snapA, Except.ok snapB, true, false, "replace", "YES"⟩

/-- A replace run whose backup write fails. -/
def replaceInpNoBackup : ReplaceInput :=
  ⟨some snapA, Except.ok snapB, false, true, "", ""⟩

/-- A fully confirmed replace run. -/
def replaceInpOk : ReplaceInput :=
  ⟨some snapA, Except.ok snapB, true, false, "REPLACE", "YES"⟩

/-- A POST /api/projects body carrying only id and name. -/
def sparseInput : ProjectInput :=
  ⟨some "p1", none, some "X", none, none, none, none, none, none, none,
    none, none, none, none, none⟩

/-- The number of operations in a batch that receive an ok response. -/
def countOkOps (oracle : RemoteCall → Outcome) (ops : List RemoteCall) : Nat :=
  (ops.filter (fun c => decide (oracle c = Outcome.ok))).length

/-- The number of operations in a batch that fail (non-success response
or thrown error). -/
def countFailOps (oracle : RemoteCall → Outcome) (ops : List RemoteCall) : Nat :=
  (ops.filter (fun c => decide (oracle c ≠ Outcome.ok))).length

/-- The phase of a mutation call in the fixed execution order: creates,
then updates, then deletes. -/
def callRank : RemoteCall → Nat
  | RemoteCall.create _ => 0
  | RemoteCall.update _ _ => 1
  | RemoteCall.delete _ => 2
  | RemoteCall.settingsUpdate _ => 3

/-- Scenario D source snapshot: one shared record, baseline settings. -/
def snapD1 : Snapshot := ⟨[pr3], settings0⟩

/-- Scenario D target snapshot: same record, settings differing only in
colorMap. -/
def snapD2 : Snapshot := ⟨[pr3], settingsD⟩

/-!
Lemmas about the id-keyed maps built by syncData.
-/

theorem findInMap_isSome_of_mem {m : List (String × Project)} {k : String}
    {v : Project} (h : (k, v) ∈ m) : (findInMap m k).isSome := by
  induction m with
  | nil => cases h
  | cons kv rest ih =>
      rcases List.mem_cons.mp h with h1 | h1
      · simp [findInMap, ← h1]
      · by_cases hk : kv.1 = k
        · simp [findInMap, hk]
        · simpa [findInMap, hk] using ih h1

theorem findInMap_mem {m : List (String × Project)} {k : String}
    {v : Project} (h : findInMap m k = some v) : (k, v) ∈ m := by
  induction m with
  | nil => simp [findInMap] at h
  | cons kv rest ih =>
      obtain ⟨k1, v1⟩ := kv
      by_cases hk : k1 = k
      · subst hk
        simp [findInMap] at h
        subst h
        exact List.mem_cons_self _ _
      · simp only [findInMap, hk, if_neg, not_false_iff] at h
        exact List.mem_cons_of_mem _ (ih h)

theorem findInMap_eq_none_iff {m : List (String × Project)} {k : String} :
    findInMap m k = none ↔ ∀ v : Project, (k, v) ∉ m := by
  constructor
  · intro h v hv
    have := findInMap_isSome_of_mem hv
    rw [h] at this
    cases this
  · intro h
    cases hf : findInMap m k with
    | none => rfl
    | some v => exact absurd (findInMap_mem hf) (h v)

theorem findInMap_eq_some_of_nodup {m : List (String × Project)} {k : String}
    {v : Project} (hn : (keysOf m).Nodup) (h : (k, v) ∈ m) :
    findInMap m k = some v := by
  induction m with
  | nil => cases h
  | cons kv rest ih =>
      rw [keysOf, List.map_cons, List.nodup_cons] at hn
      rcases List.mem_cons.mp h with h1 | h1
      · cases h1
        simp [findInMap]
      · have hk : kv.1 ≠ k := by
          intro hkk
          exact hn.1 (hkk ▸ List.mem_map_of_mem Prod.fst h1)
        simpa [findInMap, hk] using ih hn.2 h1

theorem insertEntry_keys_of_any {m : List (String × Project)} {k : String}
    {v : Project} (h : m.any (fun kv => kv.1 = k) = true) :
    keysOf (insertEntry m k v) = keysOf m := by
  rw [insertEntry, if_pos h, keysOf, keysOf, List.map_map]
  apply List.map_congr_left
  intro kv _
  by_cases hk : kv.1 = k <;> simp [hk]

theorem insertEntry_keys_of_not_any {m : List (String × Project)} {k : String}
    {v : Project} (h : ¬ m.any (fun kv => kv.1 = k) = true) :
    keysOf (insertEntry m k v) = keysOf m ++ [k] := by
  rw [insertEntry, if_neg h, keysOf, keysOf, List.map_append]
  rfl

theorem mem_keys_insertEntry {m : List (String × Project)} {k k2 : String}
    {v : Project} :
    k2 ∈ keysOf (insertEntry m k v) ↔ k2 ∈ keysOf m ∨ k2 = k := by
  by_cases h : m.any (fun kv => kv.1 = k) = true
  · rw [insertEntry_keys_of_any h]
    constructor
    · exact Or.inl
    · rintro (h1 | rfl)
      · exact h1
      · rcases List.any_eq_true.mp h with ⟨kv, hkv, hk⟩
        have hkk := of_decide_eq_true hk
        exact hkk ▸ List.mem_map_of_mem Prod.fst hkv
  · rw [insertEntry_keys_of_not_any h]
    simp

theorem nodup_keys_insertEntry {m : List (String × Project)} {k : String}
    {v : Project} (hn : (keysOf m).Nodup) :
    (keysOf (insertEntry m k v)).Nodup := by
  by_cases h : m.any (fun kv => kv.1 = k) = true
  · rwa [insertEntry_keys_of_any h]
  · rw [insertEntry_keys_of_not_any h]
    refine List.Nodup.append hn (List.nodup_singleton k) ?_
    intro a ha hb
    rcases List.mem_singleton.mp hb with rfl
    rcases List.mem_map.mp ha with ⟨kv, hkv, hk⟩
    exact h (List.any_eq_true.mpr ⟨kv, hkv, decide_eq_true hk⟩)

theorem mem_insertEntry_id {m : List (String × Project)} {k : String}
    {v : Project} (hm : ∀ kv ∈ m, (kv : String × Project).2.id = kv.1)
    (hv : v.id = k) :
    ∀ kv ∈ insertEntry m k v, (kv : String × Project).2.id = kv.1 := by
  intro kv hkv
  rw [insertEntry] at hkv
  by_cases h : m.any (fun q => q.1 = k) = true
  · rw [if_pos h] at hkv
    rcases List.mem_map.mp hkv with ⟨q, hq, hmap⟩
    by_cases hk : q.1 = k
    · rw [if_pos hk] at hmap
      rw [← hmap]
      exact hv
    · rw [if_neg hk] at hmap
      rw [← hmap]
      exact hm q hq
  · rw [if_neg h] at hkv
    rcases List.mem_append.mp hkv with h1 | h1
    · exact hm kv h1
    · rcases List.mem_singleton.mp h1 with rfl
      exact hv

theorem buildMap_invariants (ps : List Project) :
    (keysOf (buildMap ps)).Nodup ∧
      (∀ kv ∈ buildMap ps, (kv : String × Project).2.id = kv.1) ∧
      (∀ k : String, k ∈ keysOf (buildMap ps) ↔ k ∈ ps.map Project.id) := by
  have main : ∀ (ps : List Project) (m : List (String × Project)),
      (keysOf m).Nodup →
      (∀ kv ∈ m, (kv : String × Project).2.id = kv.1) →
      (keysOf (ps.foldl (fun m p => insertEntry m p.id p) m)).Nodup ∧
        (∀ kv ∈ ps.foldl (fun m p => insertEntry m p.id p) m,
          (kv : String × Project).2.id = kv.1) ∧
        (∀ k : String,
          k ∈ keysOf (ps.foldl (fun m p => insertEntry m p.id p) m) ↔
            k ∈ keysOf m ∨ k ∈ ps.map Project.id) := by
    intro ps
    induction ps with
    | nil => intro m h1 h2; exact ⟨h1, h2, fun k => by simp⟩
    | cons p rest ih =>
        intro m h1 h2
        rcases ih (insertEntry m p.id p) (nodup_keys_insertEntry h1)
          (mem_insertEntry_id h2 rfl) with ⟨g1, g2, g3⟩
        refine ⟨g1, g2, fun k => ?_⟩
        rw [List.foldl_cons] at *
        rw [g3 k, mem_keys_insertEntry]
        simp only [List.map_cons, List.mem_cons]
        tauto
  rcases main ps [] (by simp [keysOf]) (by simp) with ⟨g1, g2, g3⟩
  refine ⟨g1, g2, fun k => ?_⟩
  rw [buildMap] at *
  rw [g3 k]
  simp [keysOf]

theorem buildMap_keys_nodup (ps : List Project) :
    (keysOf (buildMap ps)).Nodup :=
  (buildMap_invariants ps).1

theorem buildMap_mem_id {ps : List Project} {kv : String × Project}
    (h : kv ∈ buildMap ps) : kv.2.id = kv.1 :=
  (buildMap_invariants ps).2.1 kv h

theorem mem_keys_buildMap {ps : List Project} {k : String} :
    k ∈ keysOf (buildMap ps) ↔ k ∈ ps.map Project.id :=
  (buildMap_invariants ps).2.2 k

theorem findInMap_isSome_of_mem_keys {m : List (String × Project)}
    {k : String} (h : k ∈ keysOf m) : (findInMap m k).isSome := by
  rcases List.mem_map.mp h with ⟨kv, hkv, hk⟩
  cases kv
  cases hk
  exact findInMap_isSome_of_mem hkv

/-!
Membership characterizations of the three plan lists, by record id.
-/

theorem computePlan_toCreate (l p : Snapshot) :
    (computePlan l p).toCreate =
      (buildMap l.projects).filterMap (fun kv =>
        match findInMap (buildMap p.projects) kv.1 with
        | none => some kv.2
        | some _ => none) := rfl

theorem computePlan_toUpdate (l p : Snapshot) :
    (computePlan l p).toUpdate =
      (buildMap l.projects).filterMap (fun kv =>
        match findInMap (buildMap p.projects) kv.1 with
        | none => none
        | some pp => if deepEqual kv.2 pp then none else some (kv.2, pp)) := rfl

theorem computePlan_toDelete (l p : Snapshot) :
    (computePlan l p).toDelete =
      (buildMap p.projects).filterMap (fun kv =>
        match findInMap (buildMap l.projects) kv.1 with
        | some _ => none
        | none => some kv.2) := rfl

theorem mem_createIds {l p : Snapshot} {s : String} :
    s ∈ createIds l p ↔
      (findInMap (buildMap l.projects) s).isSome ∧
        findInMap (buildMap p.projects) s = none := by
  constructor
  · intro h
    rcases List.mem_map.mp h with ⟨r, hr, hid⟩
    rw [computePlan_toCreate] at hr
    rcases List.mem_filterMap.mp hr with ⟨kv, hkv, hf⟩
    cases hfind : findInMap (buildMap p.projects) kv.1 with
    | some pp => rw [hfind] at hf; simp at hf
    | none =>
        rw [hfind] at hf
        simp only [Option.some.injEq] at hf
        have hk : kv.1 = s := by
          rw [← hid, ← hf]
          exact (buildMap_mem_id hkv).symm
        subst hk
        refine ⟨findInMap_isSome_of_mem (v := kv.2) ?_, hfind⟩
        exact hkv
  · rintro ⟨h1, h2⟩
    rcases Option.isSome_iff_exists.mp h1 with ⟨v, hv⟩
    apply List.mem_map.mpr
    refine ⟨v, ?_, ?_⟩
    · rw [computePlan_toCreate]
      apply List.mem_filterMap.mpr
      refine ⟨(s, v), findInMap_mem hv, ?_⟩
      simp only [h2]
    · exact buildMap_mem_id (findInMap_mem hv)

theorem mem_updateIds {l p : Snapshot} {s : String} :
    s ∈ updateIds l p ↔
      ∃ lv pv, findInMap (buildMap l.projects) s = some lv ∧
        findInMap (buildMap p.projects) s = some pv ∧
        deepEqual lv pv = false := by
  constructor
  · intro h
    rcases List.mem_map.mp h with ⟨q, hq, hid⟩
    rw [computePlan_toUpdate] at hq
    rcases List.mem_filterMap.mp hq with ⟨kv, hkv, hf⟩
    cases hfind : findInMap (buildMap p.projects) kv.1 with
    | none => rw [hfind] at hf; simp at hf
    | some pp =>
        rw [hfind] at hf
        by_cases hde : deepEqual kv.2 pp = true
        · simp [hde] at hf
        · rw [Bool.not_eq_true] at hde
          simp only [hde, Bool.false_eq_true, if_false, Option.some.injEq] at hf
          have hk : kv.1 = s := by
            rw [← hid, ← hf]
            exact (buildMap_mem_id hkv).symm
          subst hk
          refine ⟨kv.2, pp, ?_, hfind, ?_⟩
          · exact findInMap_eq_some_of_nodup (buildMap_keys_nodup _) hkv
          · exact hde
  · rintro ⟨lv, pv, h1, h2, h3⟩
    apply List.mem_map.mpr
    refine ⟨(lv, pv), ?_, ?_⟩
    · rw [computePlan_toUpdate]
      apply List.mem_filterMap.mpr
      refine ⟨(s, lv), findInMap_mem h1, ?_⟩
      simp only [h2, h3, Bool.false_eq_true, if_false]
    · exact buildMap_mem_id (findInMap_mem h1)

theorem mem_deleteIds {l p : Snapshot} {s : String} :
    s ∈ deleteIds l p ↔
      (findInMap (buildMap p.projects) s).isSome ∧
        findInMap (buildMap l.projects) s = none := by
  constructor
  · intro h
    rcases List.mem_map.mp h with ⟨r, hr, hid⟩
    rw [computePlan_toDelete] at hr
    rcases List.mem_filterMap.mp hr with ⟨kv, hkv, hf⟩
    cases hfind : findInMap (buildMap l.projects) kv.1 with
    | some pp => rw [hfind] at hf; simp at hf
    | none =>
        rw [hfind] at hf
        simp only [Option.some.injEq] at hf
        have hk : kv.1 = s := by
          rw [← hid, ← hf]
          exact (buildMap_mem_id hkv).symm
        subst hk
        refine ⟨findInMap_isSome_of_mem (v := kv.2) ?_, hfind⟩
        exact hkv
  · rintro ⟨h1, h2⟩
    rcases Option.isSome_iff_exists.mp h1 with ⟨v, hv⟩
    apply List.mem_map.mpr
    refine ⟨v, ?_, ?_⟩
    · rw [computePlan_toDelete]
      apply List.mem_filterMap.mpr
      refine ⟨(s, v), findInMap_mem hv, ?_⟩
      simp only [h2]
    · exact buildMap_mem_id (findInMap_mem hv)

/-- C1: for every pair of snapshots, every record id in the union of the
two sides falls into exactly one of the four classes computed by
syncData: create (present only in the source), update (present in both,
records not deepEqual), delete (present only in the target), or unchanged
(present in both, records deepEqual). -/
theorem plan_partition_of_ids (l p : Snapshot) (s : String)
    (hs : s ∈ unionIds l p) :
    (s ∈ createIds l p ∧ s ∉ updateIds l p ∧ s ∉ deleteIds l p ∧
      ¬ unchangedAt l p s) ∨
    (s ∉ createIds l p ∧ s ∈ updateIds l p ∧ s ∉ deleteIds l p ∧
      ¬ unchangedAt l p s) ∨
    (s ∉ createIds l p ∧ s ∉ updateIds l p ∧ s ∈ deleteIds l p ∧
      ¬ unchangedAt l p s) ∨
    (s ∉ createIds l p ∧ s ∉ updateIds l p ∧ s ∉ deleteIds l p ∧
      unchangedAt l p s) := by
  cases hfl : findInMap (buildMap l.projects) s with
  | none =>
      cases hfp : findInMap (buildMap p.projects) s with
      | none =>
          exfalso
          rcases List.mem_append.mp hs with h | h
          · have := findInMap_isSome_of_mem_keys (mem_keys_buildMap.mpr h)
            rw [hfl] at this
            cases this
          · have := findInMap_isSome_of_mem_keys (mem_keys_buildMap.mpr h)
            rw [hfp] at this
            cases this
      | some pv =>
          refine Or.inr (Or.inr (Or.inl ⟨?_, ?_, ?_, ?_⟩))
          · intro h
            rcases mem_createIds.mp h with ⟨h1, _⟩
            rw [hfl] at h1
            cases h1
          · intro h
            rcases mem_updateIds.mp h with ⟨lv, _, h1, _, _⟩
            rw [hfl] at h1
            cases h1
          · exact mem_deleteIds.mpr ⟨by rw [hfp]; rfl, hfl⟩
          · rintro ⟨lv, _, h1, _, _⟩
            rw [hfl] at h1
            cases h1
  | some lv =>
      cases hfp : findInMap (buildMap p.projects) s with
      | none =>
          refine Or.inl ⟨?_, ?_, ?_, ?_⟩
          · exact mem_createIds.mpr ⟨by rw [hfl]; rfl, hfp⟩
          · intro h
            rcases mem_updateIds.mp h with ⟨_, pv, _, h2, _⟩
            rw [hfp] at h2
            cases h2
          · intro h
            rcases mem_deleteIds.mp h with ⟨h1, _⟩
            rw [hfp] at h1
            cases h1
          · rintro ⟨_, pv, _, h2, _⟩
            rw [hfp] at h2
            cases h2
      | some pv =>
          cases hde : deepEqual lv pv with
          | false =>
              refine Or.inr (Or.inl ⟨?_, ?_, ?_, ?_⟩)
              · intro h
                rcases mem_createIds.mp h with ⟨_, h2⟩
                rw [hfp] at h2
                cases h2
              · exact mem_updateIds.mpr ⟨lv, pv, hfl, hfp, hde⟩
              · intro h
                rcases mem_deleteIds.mp h with ⟨_, h2⟩
                rw [hfl] at h2
                cases h2
              · rintro ⟨lv2, pv2, h1, h2, h3⟩
                rw [hfl] at h1
                rw [hfp] at h2
                cases h1
                cases h2
                rw [hde] at h3
                cases h3
          | true =>
              refine Or.inr (Or.inr (Or.inr ⟨?_, ?_, ?_, ?_⟩))
              · intro h
                rcases mem_createIds.mp h with ⟨_, h2⟩
                rw [hfp] at h2
                cases h2
              · intro h
                rcases mem_updateIds.mp h with ⟨lv2, pv2, h1, h2, h3⟩
                rw [hfl] at h1
                rw [hfp] at h2
                cases h1
                cases h2
                rw [hde] at h3
                cases h3
              · intro h
                rcases mem_deleteIds.mp h with ⟨_, h2⟩
                rw [hfl] at h2
                cases h2
              · exact ⟨lv, pv, hfl, hfp, hde⟩

/-- Witness for C1 at Scenario A: source ids 1, 2, 3 and target ids
2, 3, 4 with record 2 differing in name give the plan create = 1,
update = 2, delete = 4, record 3 unchanged; and the partition theorem
applies at id 2. -/
theorem plan_partition_of_ids_witness :
    (createIds snapA snapB = ["1"] ∧ updateIds snapA snapB = ["2"] ∧
      deleteIds snapA snapB = ["4"] ∧ unchangedAt snapA snapB "3" ∧
      "2" ∈ unionIds snapA snapB) ∧
    ((("2" : String) ∈ createIds snapA snapB ∧ "2" ∉ updateIds snapA snapB ∧
        "2" ∉ deleteIds snapA snapB ∧ ¬ unchangedAt snapA snapB "2") ∨
      ("2" ∉ createIds snapA snapB ∧ "2" ∈ updateIds snapA snapB ∧
        "2" ∉ deleteIds snapA snapB ∧ ¬ unchangedAt snapA snapB "2") ∨
      ("2" ∉ createIds snapA snapB ∧ "2" ∉ updateIds snapA snapB ∧
        "2" ∈ deleteIds snapA snapB ∧ ¬ unchangedAt snapA snapB "2") ∨
      ("2" ∉ createIds snapA snapB ∧ "2" ∉ updateIds snapA snapB ∧
        "2" ∉ deleteIds snapA snapB ∧ unchangedAt snapA snapB "2")) :=
  ⟨⟨by decide, by decide, by decide, ⟨pr3, pr3, rfl, rfl, by decide⟩,
      by decide⟩,
    plan_partition_of_ids snapA snapB "2" (by decide)⟩

/-!
Behaviour of the batch execution loop.
-/

theorem execOps_issued (oracle : RemoteCall → Outcome) (ops : List RemoteCall)
    (acc : OpCounts) :
    (execOps oracle ops acc).issued = acc.issued ++ ops := by
  induction ops generalizing acc with
  | nil => simp [execOps]
  | cons c rest ih =>
      simp only [execOps]
      cases h : oracle c with
      | ok => rw [ih]; simp
      | httpError => rw [ih]; simp
      | netError => rw [ih]; simp

theorem execOps_succ (oracle : RemoteCall → Outcome) (ops : List RemoteCall)
    (acc : OpCounts) :
    (execOps oracle ops acc).succ = acc.succ + countOkOps oracle ops := by
  induction ops generalizing acc with
  | nil => simp [execOps, countOkOps]
  | cons c rest ih =>
      simp only [execOps]
      cases h : oracle c with
      | ok =>
          rw [ih]
          simp [countOkOps, List.filter_cons, h]
          omega
      | httpError =>
          rw [ih]
          simp [countOkOps, List.filter_cons, h]
      | netError =>
          rw [ih]
          simp [countOkOps, List.filter_cons, h]

theorem execOps_fail (oracle : RemoteCall → Outcome) (ops : List RemoteCall)
    (acc : OpCounts) :
    (execOps oracle ops acc).fail = acc.fail + countFailOps oracle ops := by
  induction ops generalizing acc with
  | nil => simp [execOps, countFailOps]
  | cons c rest ih =>
      simp only [execOps]
      cases h : oracle c with
      | ok =>
          rw [ih]
          simp [countFailOps, List.filter_cons, h]
      | httpError =>
          rw [ih]
          simp [countFailOps, List.filter_cons, h]
          omega
      | netError =>
          rw [ih]
          simp [countFailOps, List.filter_cons, h]
          omega

theorem countOkOps_append (oracle : RemoteCall → Outcome)
    (a b : List RemoteCall) :
    countOkOps oracle (a ++ b) = countOkOps oracle a + countOkOps oracle b := by
  simp [countOkOps, List.filter_append]

theorem countFailOps_append (oracle : RemoteCall → Outcome)
    (a b : List RemoteCall) :
    countFailOps oracle (a ++ b) =
      countFailOps oracle a + countFailOps oracle b := by
  simp [countFailOps, List.filter_append]

theorem countOk_add_countFail (oracle : RemoteCall → Outcome)
    (ops : List RemoteCall) :
    countOkOps oracle ops + countFailOps oracle ops = ops.length := by
  induction ops with
  | nil => simp [countOkOps, countFailOps]
  | cons c rest ih =>
      by_cases h : oracle c = Outcome.ok <;>
        simp [countOkOps, countFailOps, List.filter_cons, h] at ih ⊢ <;>
        omega

/-- The calls of a sync run are either none at all (already in sync, or
cancelled) or exactly the expansion of the plan. -/
theorem syncRun_calls_shape (l p : Snapshot) (ac : Bool) (ans : String)
    (oracle : RemoteCall → Outcome) :
    (syncRun l p ac ans oracle).calls = [] ∨
      (syncRun l p ac ans oracle).calls = plannedCalls (computePlan l p) := by
  rw [syncRun]
  split
  · exact Or.inl rfl
  · split
    · exact Or.inl rfl
    · refine Or.inr ?_
      simp only [execOps_issued, plannedCalls]
      simp [List.append_assoc]

/-- C2 counterexample: two records that differ only in the key insertion
order inside the nested stages mapping are fully structurally equal
(mappings compared as mappings), yet syncData classifies the pair as an
update — so classification is not "update exactly when not structurally
equal". -/
theorem update_keyorder_counterexample :
    specStructuralEq keyOrderDocL keyOrderDocR = true ∧
      deepEqual krL krR = false ∧
      updateIds snapKL snapKR = ["7"] := by
  refine ⟨by decide, by decide, by decide⟩

/-- C2 amended: for an id present in both snapshots, syncData classifies
the pair as an update exactly when the JSON serializations of the two
records differ; serialization preserves key insertion order, so records
differing only in nested-mapping key order are classified as updates. -/
theorem update_iff_serializations_differ (l p : Snapshot) (s : String)
    (lv pv : Project)
    (h1 : findInMap (buildMap l.projects) s = some lv)
    (h2 : findInMap (buildMap p.projects) s = some pv) :
    s ∈ updateIds l p ↔ stringify lv.doc ≠ stringify pv.doc := by
  rw [mem_updateIds]
  constructor
  · rintro ⟨lv2, pv2, g1, g2, g3⟩ heq
    rw [h1] at g1
    rw [h2] at g2
    cases g1
    cases g2
    rw [deepEqual, heq] at g3
    simp at g3
  · intro hne
    refine ⟨lv, pv, h1, h2, ?_⟩
    rw [deepEqual]
    exact beq_eq_false_iff_ne.mpr hne

/-- Witness for the amended C2 at the key-order pair: id 7 is classified
as an update exactly because the serializations differ. -/
theorem update_iff_serializations_differ_witness :
    (findInMap (buildMap snapKL.projects) "7" = some krL) ∧
      ("7" ∈ updateIds snapKL snapKR ↔
        stringify krL.doc ≠ stringify krR.doc) :=
  ⟨rfl, update_iff_serializations_differ snapKL snapKR "7" krL krR rfl rfl⟩

theorem pairwise_rank_of_const {L : List RemoteCall} {r : Nat}
    (h : ∀ x ∈ L, callRank x = r) :
    L.Pairwise (fun a b => callRank a ≤ callRank b) := by
  induction L with
  | nil => exact List.Pairwise.nil
  | cons x xs ih =>
      refine List.Pairwise.cons ?_ (ih fun y hy => h y (List.mem_cons_of_mem _ hy))
      intro y hy
      rw [h x (List.mem_cons_self _ _), h y (List.mem_cons_of_mem _ hy)]

theorem pairwise_rank_plannedCalls (plan : Plan) :
    (plannedCalls plan).Pairwise (fun a b => callRank a ≤ callRank b) := by
  have hc : ∀ x ∈ plan.toCreate.map RemoteCall.create, callRank x = 0 := by
    intro x hx
    rcases List.mem_map.mp hx with ⟨a, _, rfl⟩
    rfl
  have hu : ∀ x ∈ plan.toUpdate.map (fun q => RemoteCall.update q.1.id q.1),
      callRank x = 1 := by
    intro x hx
    rcases List.mem_map.mp hx with ⟨a, _, rfl⟩
    rfl
  have hd : ∀ x ∈ plan.toDelete.map (fun q => RemoteCall.delete q.id),
      callRank x = 2 := by
    intro x hx
    rcases List.mem_map.mp hx with ⟨a, _, rfl⟩
    rfl
  rw [plannedCalls, List.append_assoc]
  apply List.pairwise_append.mpr
  refine ⟨pairwise_rank_of_const hc, ?_, ?_⟩
  · apply List.pairwise_append.mpr
    refine ⟨pairwise_rank_of_const hu, pairwise_rank_of_const hd, ?_⟩
    intro a ha b hb
    rw [hu a ha, hd b hb]
    omega
  · intro a ha b hb
    rw [hc a ha]
    exact Nat.zero_le _

/-- C3: the calls issued by a sync run are ordered by phase — every
create precedes every update, which precedes every delete: the phase rank
along the issued call list is monotone. -/
theorem sync_exec_order (l p : Snapshot) (ac : Bool) (ans : String)
    (oracle : RemoteCall → Outcome)
    (i j : Fin (syncRun l p ac ans oracle).calls.length) (hij : i < j) :
    callRank ((syncRun l p ac ans oracle).calls.get i) ≤
      callRank ((syncRun l p ac ans oracle).calls.get j) := by
  have hp : (syncRun l p ac ans oracle).calls.Pairwise
      (fun a b => callRank a ≤ callRank b) := by
    rcases syncRun_calls_shape l p ac ans oracle with h | h
    · rw [h]
      exact List.Pairwise.nil
    · rw [h]
      exact pairwise_rank_plannedCalls _
  exact List.pairwise_iff_get.mp hp i j hij

/-- Witness for C3 on the Scenario A plan executed with auto-confirm: the
first issued call (a create) ranks no later than the third (a delete). -/
theorem sync_exec_order_witness :
    callRank ((syncRun snapA snapB true "x" oracleAllOk).calls.get
        ⟨0, by decide⟩) ≤
      callRank ((syncRun snapA snapB true "x" oracleAllOk).calls.get
        ⟨2, by decide⟩) :=
  sync_exec_order snapA snapB true "x" oracleAllOk ⟨0, by decide⟩ ⟨2, by decide⟩
    (by decide)

/-- C4: reconciling any snapshot against an identical copy of itself
yields the empty plan (no creates, updates or deletes, settings
unchanged); and whenever the computed plan is empty the run reports
already-in-sync and issues zero remote mutation calls. -/
theorem sync_noop_idempotent :
    (∀ s : Snapshot, (computePlan s s).toCreate = [] ∧
      (computePlan s s).toUpdate = [] ∧ (computePlan s s).toDelete = [] ∧
      (computePlan s s).settingsChanged = false) ∧
    (∀ (l p : Snapshot) (ac : Bool) (ans : String)
        (oracle : RemoteCall → Outcome),
      ((computePlan l p).toCreate.isEmpty && (computePlan l p).toUpdate.isEmpty
          && (computePlan l p).toDelete.isEmpty
          && !(computePlan l p).settingsChanged) = true →
        (syncRun l p ac ans oracle).alreadyInSync = true ∧
          (syncRun l p ac ans oracle).calls = []) := by
  constructor
  · intro s
    refine ⟨?_, ?_, ?_, ?_⟩
    · rw [computePlan_toCreate]
      apply List.filterMap_eq_nil_iff.mpr
      intro kv hkv
      have hsome := findInMap_isSome_of_mem (k := kv.1) (v := kv.2) hkv
      cases hfind : findInMap (buildMap s.projects) kv.1 with
      | none => rw [hfind] at hsome; cases hsome
      | some v => rfl
    · rw [computePlan_toUpdate]
      apply List.filterMap_eq_nil_iff.mpr
      intro kv hkv
      have hfind := findInMap_eq_some_of_nodup (buildMap_keys_nodup _)
        (k := kv.1) (v := kv.2) hkv
      rw [hfind]
      have hde : deepEqual kv.2 kv.2 = true := by simp [deepEqual]
      simp [hde]
    · rw [computePlan_toDelete]
      apply List.filterMap_eq_nil_iff.mpr
      intro kv hkv
      have hsome := findInMap_isSome_of_mem (k := kv.1) (v := kv.2) hkv
      cases hfind : findInMap (buildMap s.projects) kv.1 with
      | none => rw [hfind] at hsome; cases hsome
      | some v => rfl
    · simp [computePlan, deepEqualJson]
  · intro l p ac ans oracle h
    rw [syncRun]
    split
    next => exact ⟨rfl, rfl⟩
    next hcond => exact absurd h hcond

/-- Witness for C4: running the sync with two identical copies of
Scenario A's source snapshot reports already-in-sync with zero calls. -/
theorem sync_noop_idempotent_witness :
    (((computePlan snapA snapA).toCreate.isEmpty &&
        (computePlan snapA snapA).toUpdate.isEmpty &&
        (computePlan snapA snapA).toDelete.isEmpty &&
        !(computePlan snapA snapA).settingsChanged) = true) ∧
      ((syncRun snapA snapA false "no" oracleAllOk).alreadyInSync = true ∧
        (syncRun snapA snapA false "no" oracleAllOk).calls = []) :=
  ⟨by decide, sync_noop_idempotent.2 snapA snapA false "no" oracleAllOk (by decide)⟩

/-- C5 counterexample: answering the second replace prompt with lowercase
yes — not the exact-match phrase YES — still executes the replacement:
three production records are deleted.  The second prompt is compared
case-insensitively (toUpperCase), not by exact match. -/
theorem replace_confirm_counterexample :
    ("yes" : String) ≠ "YES" ∧
      (replaceRun replaceInpLower oracleAllOk).cancelled = false ∧
      (replaceRun replaceInpLower oracleAllOk).deleted = 3 := by
  refine ⟨by decide, by decide, by decide⟩

/-- C5 amended: without the auto-confirm flag no mutation call is issued
unless confirmation succeeds.  In the sync workflow an answer that does
not lowercase to yes or y cancels with zero calls; in the replace
workflow execution requires the first answer to be exactly REPLACE and
the second answer to uppercase to YES, and any other input at either step
cancels with zero mutations. -/
theorem cancellation_purity :
    (∀ (l p : Snapshot) (ans : String) (oracle : RemoteCall → Outcome),
      jsToLower ans ≠ "yes" → jsToLower ans ≠ "y" →
        (syncRun l p false ans oracle).calls = []) ∧
    (∀ (inp : ReplaceInput) (oracle : RemoteCall → Outcome),
      inp.autoConfirm = false →
      (inp.answer1 ≠ "REPLACE" ∨ jsToUpper inp.answer2 ≠ "YES") →
        (replaceRun inp oracle).deleted = 0 ∧
          (replaceRun inp oracle).created = 0 ∧
          ∀ c, REvent.call c ∉ (replaceRun inp oracle).events) := by
  constructor
  · intro l p ans oracle h1 h2
    rw [syncRun]
    split
    next => rfl
    next hcond =>
      split
      next => rfl
      next hcond2 =>
        exfalso
        apply hcond2
        simp only [Bool.not_false, Bool.true_and, Bool.and_eq_true, bne_iff_ne]
        exact ⟨h1, h2⟩
  · rintro ⟨ld, fr, bw, ac, a1, a2⟩ oracle hac hbad
    simp only at hac hbad
    subst hac
    cases ld with
    | none => exact ⟨rfl, rfl, fun c hc => by cases hc⟩
    | some lD =>
        cases fr with
        | error e => exact ⟨rfl, rfl, fun c hc => by cases hc⟩
        | ok pD =>
            cases bw with
            | false => exact ⟨rfl, rfl, fun c hc => by cases hc⟩
            | true =>
                by_cases ha1 : a1 = "REPLACE"
                · have ha2 : jsToUpper a2 ≠ "YES" := by
                    rcases hbad with h | h
                    · exact absurd ha1 h
                    · exact h
                  have hc1 : (!false && a1 != "REPLACE") = false := by
                    subst ha1
                    rfl
                  have hc2 : (!false && jsToUpper a2 != "YES") = true := by
                    simp only [Bool.not_false, Bool.true_and, bne_iff_ne]
                    exact ha2
                  simp only [replaceRun, hc1, hc2, Bool.false_eq_true,
                    if_false, if_true]
                  exact ⟨rfl, rfl, fun c hc => by simp at hc⟩
                · have hc1 : (!false && a1 != "REPLACE") = true := by
                    simp only [Bool.not_false, Bool.true_and, bne_iff_ne]
                    exact ha1
                  simp only [replaceRun, hc1, if_true]
                  exact ⟨rfl, rfl, fun c hc => by simp at hc⟩

/-- Witness for the amended C5: a sync answered no issues zero calls, and
a replace whose first phrase is mistyped as lowercase replace cancels
with zero deletions, zero creations and no mutation calls. -/
theorem cancellation_purity_witness :
    ((syncRun snapA snapB false "no" oracleAllOk).calls = []) ∧
      ((replaceRun replaceInpBad1 oracleAllOk).deleted = 0 ∧
        (replaceRun replaceInpBad1 oracleAllOk).created = 0 ∧
        ∀ c, REvent.call c ∉ (replaceRun replaceInpBad1 oracleAllOk).events) :=
  ⟨cancellation_purity.1 snapA snapB "no" oracleAllOk (by decide) (by decide),
    cancellation_purity.2 replaceInpBad1 oracleAllOk rfl (Or.inl (by decide))⟩

/-- C6: in the replace workflow, whenever any remote mutation call
appears in the run, the backup of the fetched production snapshot is the
very first event — the backup write completes before the first delete —
and when the production fetch fails or the backup write fails the run
aborts having issued no delete and no create call. -/
theorem replace_backup_before_destroy (inp : ReplaceInput)
    (oracle : RemoteCall → Outcome) :
    ((∃ c, REvent.call c ∈ (replaceRun inp oracle).events) →
      ∃ s tl, (replaceRun inp oracle).events = REvent.backup s :: tl) ∧
    (((∃ e, inp.fetchResult = Except.error e) ∨ inp.backupWriteOk = false) →
      (replaceRun inp oracle).events = [] ∧
        (replaceRun inp oracle).deleted = 0 ∧
        (replaceRun inp oracle).dfailed = 0 ∧
        (replaceRun inp oracle).created = 0 ∧
        (replaceRun inp oracle).cfailed = 0) := by
  obtain ⟨ld, fr, bw, ac, a1, a2⟩ := inp
  cases ld with
  | none =>
      refine ⟨fun h => ?_, fun h => ⟨rfl, rfl, rfl, rfl, rfl⟩⟩
      rcases h with ⟨c, hc⟩
      cases hc
  | some lD =>
      cases fr with
      | error e =>
          refine ⟨fun h => ?_, fun h => ⟨rfl, rfl, rfl, rfl, rfl⟩⟩
          rcases h with ⟨c, hc⟩
          cases hc
      | ok pD =>
          cases bw with
          | false =>
              refine ⟨fun h => ?_, fun h => ⟨rfl, rfl, rfl, rfl, rfl⟩⟩
              rcases h with ⟨c, hc⟩
              cases hc
          | true =>
              constructor
              · intro h
                simp only [replaceRun]
                split
                next hfalse => simp at hfalse
                next =>
                  split
                  next => exact ⟨pD, [], rfl⟩
                  next =>
                    split
                    next => exact ⟨pD, [], rfl⟩
                    next => exact ⟨pD, _, rfl⟩
              · rintro (⟨e, he⟩ | hbw)
                · cases he
                · cases hbw

/-- Witness for C6: a fully confirmed replace run issues a delete call,
and its event list indeed starts with the backup of the fetched
production snapshot. -/
theorem replace_backup_before_destroy_witness :
    (∃ c, REvent.call c ∈ (replaceRun replaceInpOk oracleAllOk).events) ∧
      ∃ s tl, (replaceRun replaceInpOk oracleAllOk).events =
        REvent.backup s :: tl := by
  have hmem : REvent.call (RemoteCall.delete "2") ∈
      (replaceRun replaceInpOk oracleAllOk).events := by
    rw [show (replaceRun replaceInpOk oracleAllOk).events =
      [REvent.backup snapB, REvent.call (RemoteCall.delete "2"),
        REvent.call (RemoteCall.delete "3"), REvent.call (RemoteCall.delete "4"),
        REvent.call (RemoteCall.create pr1), REvent.call (RemoteCall.create pr2L),
        REvent.call (RemoteCall.create pr3), REvent.settingsNote,
        REvent.verify] from rfl]
    exact List.Mem.tail _ (List.Mem.head _)
  exact ⟨⟨RemoteCall.delete "2", hmem⟩,
    (replace_backup_before_destroy replaceInpOk oracleAllOk).1
      ⟨RemoteCall.delete "2", hmem⟩⟩

/-- Reduction of a sync run in the executing branch: the plan is not
empty and confirmation passed. -/
theorem syncRun_exec_eq (l p : Snapshot) (ac : Bool) (ans : String)
    (oracle : RemoteCall → Outcome)
    (h1 : ((computePlan l p).toCreate.isEmpty &&
      (computePlan l p).toUpdate.isEmpty && (computePlan l p).toDelete.isEmpty
      && !(computePlan l p).settingsChanged) = false)
    (h2 : (!ac && jsToLower ans != "yes" && jsToLower ans != "y") = false) :
    syncRun l p ac ans oracle =
      { calls := (execOps oracle
          ((computePlan l p).toDelete.map (fun q => RemoteCall.delete q.id))
          (execOps oracle
            ((computePlan l p).toUpdate.map (fun q => RemoteCall.update q.1.id q.1))
            (execOps oracle
              ((computePlan l p).toCreate.map RemoteCall.create)
              ⟨0, 0, []⟩))).issued,
        successCount := (execOps oracle
          ((computePlan l p).toDelete.map (fun q => RemoteCall.delete q.id))
          (execOps oracle
            ((computePlan l p).toUpdate.map (fun q => RemoteCall.update q.1.id q.1))
            (execOps oracle
              ((computePlan l p).toCreate.map RemoteCall.create)
              ⟨0, 0, []⟩))).succ,
        failCount := (execOps oracle
          ((computePlan l p).toDelete.map (fun q => RemoteCall.delete q.id))
          (execOps oracle
            ((computePlan l p).toUpdate.map (fun q => RemoteCall.update q.1.id q.1))
            (execOps oracle
              ((computePlan l p).toCreate.map RemoteCall.create)
              ⟨0, 0, []⟩))).fail,
        alreadyInSync := false, cancelled := false,
        settingsNotice := (computePlan l p).settingsChanged,
        finished := true } := by
  rw [syncRun]
  rw [if_neg (by rw [h1]; exact Bool.false_ne_true)]
  rw [if_neg (by rw [h2]; exact Bool.false_ne_true)]

/-- Reduction of a replace run in the executing branch. -/
theorem replaceRun_exec_eq (lD pD : Snapshot) (ac : Bool) (a1 a2 : String)
    (oracle : RemoteCall → Outcome)
    (h1 : (!ac && a1 != "REPLACE") = false)
    (h2 : (!ac && jsToUpper a2 != "YES") = false) :
    replaceRun ⟨some lD, Except.ok pD, true, ac, a1, a2⟩ oracle =
      { events := REvent.backup pD ::
          ((execOps oracle (deleteCallsOf pD.projects) ⟨0, 0, []⟩).issued.map
              REvent.call ++
            (execOps oracle (createCallsOf lD.projects) ⟨0, 0, []⟩).issued.map
              REvent.call ++
            [REvent.settingsNote, REvent.verify]),
        deleted := (execOps oracle (deleteCallsOf pD.projects) ⟨0, 0, []⟩).succ,
        dfailed := (execOps oracle (deleteCallsOf pD.projects) ⟨0, 0, []⟩).fail,
        created := (execOps oracle (createCallsOf lD.projects) ⟨0, 0, []⟩).succ,
        cfailed := (execOps oracle (createCallsOf lD.projects) ⟨0, 0, []⟩).fail,
        cancelled := false, aborted := false, finished := true } := by
  simp [replaceRun, h1, h2]

/-- Reduction of a replace run cancelled at the first prompt. -/
theorem replaceRun_cancel1_eq (lD pD : Snapshot) (ac : Bool) (a1 a2 : String)
    (oracle : RemoteCall → Outcome)
    (h1 : (!ac && a1 != "REPLACE") = true) :
    replaceRun ⟨some lD, Except.ok pD, true, ac, a1, a2⟩ oracle =
      { events := [REvent.backup pD], deleted := 0, dfailed := 0,
        created := 0, cfailed := 0, cancelled := true, aborted := false,
        finished := false } := by
  simp [replaceRun, h1]

/-- Reduction of a replace run cancelled at the second prompt. -/
theorem replaceRun_cancel2_eq (lD pD : Snapshot) (ac : Bool) (a1 a2 : String)
    (oracle : RemoteCall → Outcome)
    (h1 : (!ac && a1 != "REPLACE") = false)
    (h2 : (!ac && jsToUpper a2 != "YES") = true) :
    replaceRun ⟨some lD, Except.ok pD, true, ac, a1, a2⟩ oracle =
      { events := [REvent.backup pD], deleted := 0, dfailed := 0,
        created := 0, cfailed := 0, cancelled := true, aborted := false,
        finished := false } := by
  simp [replaceRun, h1, h2]

/-- C7: in every executed batch the full planned operation list is
attempted regardless of the per-operation outcomes: the sync run issues
exactly the plan expansion, counting ok outcomes as successes and every
failing outcome (non-success response or thrown error) as a counted
failure, with successes plus failures equal to the number of planned
operations; the replace run attempts every delete of the production
records and every create of the local records, with the same counting. -/
theorem partial_failure_containment :
    (∀ (l p : Snapshot) (ac : Bool) (ans : String)
        (oracle : RemoteCall → Outcome),
      (syncRun l p ac ans oracle).alreadyInSync = false →
      (syncRun l p ac ans oracle).cancelled = false →
        (syncRun l p ac ans oracle).calls = plannedCalls (computePlan l p) ∧
        (syncRun l p ac ans oracle).successCount =
          countOkOps oracle (plannedCalls (computePlan l p)) ∧
        (syncRun l p ac ans oracle).failCount =
          countFailOps oracle (plannedCalls (computePlan l p)) ∧
        (syncRun l p ac ans oracle).successCount +
            (syncRun l p ac ans oracle).failCount =
          (plannedCalls (computePlan l p)).length) ∧
    (∀ (inp : ReplaceInput) (oracle : RemoteCall → Outcome) (lD pD : Snapshot),
      inp.localData = some lD → inp.fetchResult = Except.ok pD →
      (replaceRun inp oracle).aborted = false →
      (replaceRun inp oracle).cancelled = false →
        (replaceRun inp oracle).deleted =
          countOkOps oracle (deleteCallsOf pD.projects) ∧
        (replaceRun inp oracle).dfailed =
          countFailOps oracle (deleteCallsOf pD.projects) ∧
        (replaceRun inp oracle).deleted + (replaceRun inp oracle).dfailed =
          pD.projects.length ∧
        (replaceRun inp oracle).created =
          countOkOps oracle (createCallsOf lD.projects) ∧
        (replaceRun inp oracle).cfailed =
          countFailOps oracle (createCallsOf lD.projects) ∧
        (replaceRun inp oracle).created + (replaceRun inp oracle).cfailed =
          lD.projects.length) := by
  constructor
  · intro l p ac ans oracle hsync hcancel
    cases hc1 : ((computePlan l p).toCreate.isEmpty &&
        (computePlan l p).toUpdate.isEmpty && (computePlan l p).toDelete.isEmpty
        && !(computePlan l p).settingsChanged) with
    | true =>
        exfalso
        rw [syncRun, if_pos hc1] at hsync
        cases hsync
    | false =>
        cases hc2 : (!ac && jsToLower ans != "yes" && jsToLower ans != "y") with
        | true =>
            exfalso
            rw [syncRun, if_neg (by rw [hc1]; exact Bool.false_ne_true),
              if_pos hc2] at hcancel
            cases hcancel
        | false =>
            rw [syncRun_exec_eq l p ac ans oracle hc1 hc2]
            refine ⟨?_, ?_, ?_, ?_⟩
            · simp only [execOps_issued, plannedCalls]
              simp [List.append_assoc]
            · simp only [execOps_succ, plannedCalls, countOkOps_append]
              omega
            · simp only [execOps_fail, plannedCalls, countFailOps_append]
              omega
            · have h1 := countOk_add_countFail oracle
                ((computePlan l p).toCreate.map RemoteCall.create)
              have h2 := countOk_add_countFail oracle
                ((computePlan l p).toUpdate.map
                  (fun q => RemoteCall.update q.1.id q.1))
              have h3 := countOk_add_countFail oracle
                ((computePlan l p).toDelete.map (fun q => RemoteCall.delete q.id))
              simp only [execOps_succ, execOps_fail, plannedCalls,
                countOkOps_append, countFailOps_append, List.length_append]
              omega
  · rintro ⟨ld, fr, bw, ac, a1, a2⟩ oracle lD pD hld hfr habort hcancel
    simp only at hld hfr
    subst hld
    subst hfr
    cases bw with
    | false => cases habort
    | true =>
        cases hc1 : (!ac && a1 != "REPLACE") with
        | true =>
            exfalso
            rw [replaceRun_cancel1_eq lD pD ac a1 a2 oracle hc1] at hcancel
            cases hcancel
        | false =>
            cases hc2 : (!ac && jsToUpper a2 != "YES") with
            | true =>
                exfalso
                rw [replaceRun_cancel2_eq lD pD ac a1 a2 oracle hc1 hc2]
                  at hcancel
                cases hcancel
            | false =>
                rw [replaceRun_exec_eq lD pD ac a1 a2 oracle hc1 hc2]
                have hd := countOk_add_countFail oracle (deleteCallsOf pD.projects)
                have hc := countOk_add_countFail oracle (createCallsOf lD.projects)
                have hdl : (deleteCallsOf pD.projects).length =
                    pD.projects.length := by
                  rw [deleteCallsOf, List.length_map]
                have hcl : (createCallsOf lD.projects).length =
                    lD.projects.length := by
                  rw [createCallsOf, List.length_map]
                refine ⟨?_, ?_, ?_, ?_, ?_, ?_⟩ <;>
                  simp only [execOps_succ, execOps_fail] <;>
                  omega

/-- Witness for C7: executing the Scenario A plan under a gateway that
rejects only the delete of id 4 still issues all three calls, with two
successes and one counted failure; the replace analogue with a gateway
rejecting the delete of id 3 deletes two of three and creates all
three. -/
theorem partial_failure_containment_witness :
    ((syncRun snapA snapB true "" (oracleFailOn "4")).alreadyInSync = false ∧
      (syncRun snapA snapB true "" (oracleFailOn "4")).cancelled = false) ∧
    ((syncRun snapA snapB true "" (oracleFailOn "4")).calls =
        plannedCalls (computePlan snapA snapB) ∧
      (syncRun snapA snapB true "" (oracleFailOn "4")).successCount =
        countOkOps (oracleFailOn "4") (plannedCalls (computePlan snapA snapB)) ∧
      (syncRun snapA snapB true "" (oracleFailOn "4")).failCount =
        countFailOps (oracleFailOn "4")
          (plannedCalls (computePlan snapA snapB)) ∧
      (syncRun snapA snapB true "" (oracleFailOn "4")).successCount +
          (syncRun snapA snapB true "" (oracleFailOn "4")).failCount =
        (plannedCalls (computePlan snapA snapB)).length) ∧
    ((replaceRun replaceInpOk (oracleFailOn "3")).deleted = 2 ∧
      (replaceRun replaceInpOk (oracleFailOn "3")).dfailed = 1 ∧
      (replaceRun replaceInpOk (oracleFailOn "3")).created = 3) :=
  ⟨⟨by decide, by decide⟩,
    partial_failure_containment.1 snapA snapB true "" (oracleFailOn "4")
      (by decide) (by decide),
    by decide, by decide, by decide⟩


theorem settingsUpdate_not_mem_planned (plan : Plan) (s : Json) :
    RemoteCall.settingsUpdate s ∉ plannedCalls plan := by
  intro h
  rw [plannedCalls] at h
  rcases List.mem_append.mp h with h | h
  · rcases List.mem_append.mp h with h | h
    · rcases List.mem_map.mp h with ⟨a, _, ha⟩
      exact RemoteCall.noConfusion ha
    · rcases List.mem_map.mp h with ⟨a, _, ha⟩
      exact RemoteCall.noConfusion ha
  · rcases List.mem_map.mp h with ⟨a, _, ha⟩
    exact RemoteCall.noConfusion ha

/-- C8: a settings difference sets the settingsChanged flag, yet neither
workflow ever issues a settings-mutation call; an executing sync run
raises the settings-not-applied notice exactly when the plan flagged
settings as changed and still reaches its final summary, and an
executing replace run always prints the settings-not-implemented notice
and reaches its final summary. -/
theorem settings_never_applied :
    (∀ (l p : Snapshot) (ac : Bool) (ans : String)
        (oracle : RemoteCall → Outcome),
      (∀ s, RemoteCall.settingsUpdate s ∉ (syncRun l p ac ans oracle).calls) ∧
      ((syncRun l p ac ans oracle).alreadyInSync = false →
        (syncRun l p ac ans oracle).cancelled = false →
          (syncRun l p ac ans oracle).settingsNotice =
            (computePlan l p).settingsChanged ∧
          (syncRun l p ac ans oracle).finished = true)) ∧
    (∀ (inp : ReplaceInput) (oracle : RemoteCall → Outcome),
      (∀ s, REvent.call (RemoteCall.settingsUpdate s) ∉
        (replaceRun inp oracle).events) ∧
      ((replaceRun inp oracle).aborted = false →
        (replaceRun inp oracle).cancelled = false →
          REvent.settingsNote ∈ (replaceRun inp oracle).events ∧
          (replaceRun inp oracle).finished = true)) := by
  constructor
  · intro l p ac ans oracle
    constructor
    · intro s hmem
      rcases syncRun_calls_shape l p ac ans oracle with h | h
      · rw [h] at hmem
        cases hmem
      · rw [h] at hmem
        exact settingsUpdate_not_mem_planned _ s hmem
    · intro hsync hcancel
      cases hc1 : ((computePlan l p).toCreate.isEmpty &&
          (computePlan l p).toUpdate.isEmpty &&
          (computePlan l p).toDelete.isEmpty
          && !(computePlan l p).settingsChanged) with
      | true =>
          exfalso
          rw [syncRun, if_pos hc1] at hsync
          cases hsync
      | false =>
          cases hc2 : (!ac && jsToLower ans != "yes" && jsToLower ans != "y") with
          | true =>
              exfalso
              rw [syncRun, if_neg (by rw [hc1]; exact Bool.false_ne_true),
                if_pos hc2] at hcancel
              cases hcancel
          | false =>
              rw [syncRun_exec_eq l p ac ans oracle hc1 hc2]
              exact ⟨rfl, rfl⟩
  · rintro ⟨ld, fr, bw, ac, a1, a2⟩ oracle
    cases ld with
    | none =>
        refine ⟨(fun s hc => by cases hc), fun habort => ?_⟩
        cases habort
    | some lD =>
        cases fr with
        | error e =>
            refine ⟨(fun s hc => by cases hc), fun habort => ?_⟩
            cases habort
        | ok pD =>
            cases bw with
            | false =>
                refine ⟨(fun s hc => by cases hc), fun habort => ?_⟩
                cases habort
            | true =>
                cases hc1 : (!ac && a1 != "REPLACE") with
                | true =>
                    rw [replaceRun_cancel1_eq lD pD ac a1 a2 oracle hc1]
                    refine ⟨(fun s hc => by simp at hc), fun _ hcancel => ?_⟩
                    cases hcancel
                | false =>
                    cases hc2 : (!ac && jsToUpper a2 != "YES") with
                    | true =>
                        rw [replaceRun_cancel2_eq lD pD ac a1 a2 oracle hc1 hc2]
                        refine ⟨(fun s hc => by simp at hc), fun _ hcancel => ?_⟩
                        cases hcancel
                    | false =>
                        rw [replaceRun_exec_eq lD pD ac a1 a2 oracle hc1 hc2]
                        constructor
                        · intro s hc
                          simp only [execOps_issued, List.nil_append,
                            deleteCallsOf, createCallsOf, List.map_map] at hc
                          simp at hc
                        · intro _ _
                          refine ⟨?_, rfl⟩
                          simp

/-- Witness for C8 at Scenario D: with settings differing only in
colorMap, the plan flags settingsChanged, the executing sync run raises
the settings notice and finishes, and no settings-mutation call occurs;
the confirmed replace run prints its settings notice as well. -/
theorem settings_never_applied_witness :
    ((computePlan snapD1 snapD2).settingsChanged = true) ∧
    ((syncRun snapD1 snapD2 true "" oracleAllOk).settingsNotice =
        (computePlan snapD1 snapD2).settingsChanged ∧
      (syncRun snapD1 snapD2 true "" oracleAllOk).finished = true) ∧
    (RemoteCall.settingsUpdate settings0 ∉
      (syncRun snapD1 snapD2 true "" oracleAllOk).calls) ∧
    (REvent.settingsNote ∈ (replaceRun replaceInpOk oracleAllOk).events ∧
      (replaceRun replaceInpOk oracleAllOk).finished = true) :=
  ⟨by decide,
    ((settings_never_applied.1 snapD1 snapD2 true "" oracleAllOk).2
      (by decide) (by decide)),
    (settings_never_applied.1 snapD1 snapD2 true "" oracleAllOk).1 settings0,
    (settings_never_applied.2 replaceInpOk oracleAllOk).2 (by decide) (by decide)⟩

/-- C9: whenever the query itself does not error, the gateway delete
handler runs the row deletion unconditionally and answers the success
body, regardless of whether a row with the requested id exists — its
response is identical for every table contents, so deleting a
non-existent id is indistinguishable from deleting an existing one. -/
theorem delete_succeeds_without_existence_check
    (dbase : List StoredProject) (pid : String) (qf : Bool)
    (hq : qf = false) :
    deleteProjectHandler dbase pid qf =
      (dbase.filter (fun r => r.id ≠ some pid),
        Json.obj [("success", Json.bool true)]) ∧
    ∀ dbase2 : List StoredProject,
      (deleteProjectHandler dbase pid qf).2 =
        (deleteProjectHandler dbase2 pid qf).2 := by
  subst hq
  exact ⟨rfl, fun dbase2 => rfl⟩

/-- Witness for C9: deleting id zz from a table that does not contain it
leaves the table unchanged and still answers the success body. -/
theorem delete_succeeds_without_existence_check_witness :
    ((false : Bool) = false) ∧
      deleteProjectHandler [] "zz" false =
        (([] : List StoredProject).filter (fun r => r.id ≠ some "zz"),
          Json.obj [("success", Json.bool true)]) :=
  ⟨rfl, (delete_succeeds_without_existence_check [] "zz" false rfl).1⟩

/-- C10: the gateway create handler does not persist the submitted record
verbatim: a missing number is replaced by the random draw of the run, a
missing typeColor by the fixed default color, missing string fields by
empty strings, missing projectTypes and pauses by stringified empty
arrays; consequently two runs of create on the same number-less input
can persist different records — create is not deterministic. -/
theorem create_defaults_and_randomness (p : ProjectInput) (rand : Int) :
    (p.number = none → (createProjectData p rand).number = rand) ∧
    (p.typeColor = none → (createProjectData p rand).typeColor = "#5a8a99") ∧
    (p.client = none → (createProjectData p rand).client = "") ∧
    (p.projectTypes = none → (createProjectData p rand).projectTypes = "[]") ∧
    (p.pauses = none → (createProjectData p rand).pauses = "[]") ∧
    createProjectData sparseInput 5 ≠ createProjectData sparseInput 7 := by
  refine ⟨?_, ?_, ?_, ?_, ?_, ?_⟩
  · intro h
    simp [createProjectData, h]
  · intro h
    simp [createProjectData, jsOrS, h]
  · intro h
    simp [createProjectData, jsOrS, h]
  · intro h
    show stringify (Json.arr ((p.projectTypes.getD []).map Json.str)) = "[]"
    rw [h]
    rfl
  · intro h
    show stringify (Json.arr (p.pauses.getD [])) = "[]"
    rw [h]
    rfl
  · decide

/-- Witness for C10 on a body carrying only id and name: the stored row
takes the run's random number and all defaults, and the two runs with
different random draws persist different rows. -/
theorem create_defaults_and_randomness_witness :
    (createProjectData sparseInput 5).number = 5 ∧
      (createProjectData sparseInput 5).typeColor = "#5a8a99" ∧
      (createProjectData sparseInput 5).client = "" ∧
      (createProjectData sparseInput 5).projectTypes = "[]" ∧
      (createProjectData sparseInput 5).pauses = "[]" ∧
      createProjectData sparseInput 5 ≠ createProjectData sparseInput 7 :=
  ⟨(create_defaults_and_randomness sparseInput 5).1 rfl,
    (create_defaults_and_randomness sparseInput 5).2.1 rfl,
    (create_defaults_and_randomness sparseInput 5).2.2.1 rfl,
    (create_defaults_and_randomness sparseInput 5).2.2.2.1 rfl,
    (create_defaults_and_randomness sparseInput 5).2.2.2.2.1 rfl,
    (create_defaults_and_randomness sparseInput 5).2.2.2.2.2⟩

end Fenwick
